import Mathlib

/-!
Verification of `notebooks/04_EY_challenge2/Sentinel-1_example_rgb.ipynb`.

The notebook is a linear script over floating-point raster bands.  We embed
its arithmetic shallowly:

* A floating-point value is modelled by `Fl`: either NaN, a signed infinity,
  or a finite value carried as an exact rational.  The IEEE-754 special-value
  rules for division, multiplication and addition are kept, and the two
  signed zeros are collapsed into the single `Fl.finite 0`.  Two finite
  arithmetics are provided: the exact one (`Fl.div`, `Fl.mul`, `Fl.add`),
  used for the claims whose truth does not depend on rounding, and the
  binary64-faithful one (`Fl.div64`, `Fl.mul64`, built on the
  round-to-nearest-even function `fl64`), used where a claim's truth turns
  on the 53-bit rounding the program's float64 arrays perform.
* A raster band (one `xarray` data variable) is a `List Fl`, the flattened
  pixel grid; the two bands of one loaded scene share one grid, so
  elementwise operations pair pixels positionally (`List.zipWith`).
* An `xarray.Dataset` is an association list from variable names to bands;
  `s1["x"] = ...` is `setVar`, attribute/key reads are `getVar` (an absent
  name is Python's `AttributeError`, hence `Option`).
-/

/-- Model of a floating-point scalar: NaN, a signed infinity (`neg = true`
for `-∞`), or an exact finite rational.  Signed zeros are collapsed. -/
inductive Fl
  | nan : Fl
  | inf (neg : Bool) : Fl
  | finite (q : ℚ) : Fl
deriving DecidableEq, Repr

namespace Fl

/-- `True` exactly on NaN. -/
def isNan : Fl → Bool
  | nan => true
  | _ => false

/-- IEEE-754 division, with exact rationals in place of rounded finite
results and a single unsigned zero.  `x / 0` is `±∞` for finite nonzero
`x`, NaN for `0 / 0`, and NaN whenever either operand is NaN. -/
def div : Fl → Fl → Fl
  | nan, _ => nan
  | _, nan => nan
  | inf _, inf _ => nan
  | inf s, finite q => if q < 0 then inf (!s) else inf s
  | finite _, inf _ => finite 0
  | finite q, finite r =>
      if r = 0 then
        (if q = 0 then nan else if q < 0 then inf true else inf false)
      else finite (q / r)

/-- IEEE-754 multiplication under the same conventions as `div`. -/
def mul : Fl → Fl → Fl
  | nan, _ => nan
  | _, nan => nan
  | inf s, inf t => inf (s != t)
  | inf s, finite q => if q = 0 then nan else if q < 0 then inf (!s) else inf s
  | finite q, inf t => if q = 0 then nan else if q < 0 then inf (!t) else inf t
  | finite q, finite r => finite (q * r)

/-- IEEE-754 addition under the same conventions as `div`; `∞ + (-∞)` is
NaN. -/
def add : Fl → Fl → Fl
  | nan, _ => nan
  | _, nan => nan
  | inf s, inf t => if s = t then inf s else nan
  | inf s, finite _ => inf s
  | finite _, inf t => inf t
  | finite q, finite r => finite (q + r)

end Fl

/-- The IEEE-754 value of `num / 0` (unsigned zero): NaN for a zero or
missing numerator, a signed infinity otherwise. -/
def Fl.zeroDenomResult : Fl → Fl
  | Fl.nan => Fl.nan
  | Fl.inf s => Fl.inf s
  | Fl.finite q =>
      if q = 0 then Fl.nan else if q < 0 then Fl.inf true else Fl.inf false

/-- A raster band: the flattened pixel grid of one data variable. -/
abbrev Band := List Fl

/-- Elementwise division of two bands sharing one grid, as in
`s1.vv/s1.vh` (cell 16). -/
def divBand (a b : Band) : Band := List.zipWith Fl.div a b

/-- Rounding to the nearest integer, ties to even — the rounding of the
significand IEEE-754 round-to-nearest-even performs. -/
def roundNearestEven (q : ℚ) : ℤ :=
  if q - ⌊q⌋ < 1 / 2 then ⌊q⌋
  else if 1 / 2 < q - ⌊q⌋ then ⌊q⌋ + 1
  else if ⌊q⌋ % 2 = 0 then ⌊q⌋ else ⌊q⌋ + 1

/-- Binary64 rounding of an exact rational: round-to-nearest-even with a
53-bit significand.  The exponent is unbounded (no overflow or subnormal
range is modelled; the values this development evaluates it on are far
from both). -/
def fl64 (q : ℚ) : ℚ :=
  if q = 0 then 0
  else
    (if q < 0 then (-1 : ℚ) else 1) *
      ((roundNearestEven (|q| * (2 : ℚ) ^ (52 - Int.log 2 |q|)) : ℚ) *
        (2 : ℚ) ^ (Int.log 2 |q| - 52))

/-- Binary64 division: as `Fl.div`, but the finite quotient is rounded to
53 bits, as numpy float64 division rounds it. -/
def Fl.div64 : Fl → Fl → Fl
  | Fl.nan, _ => Fl.nan
  | _, Fl.nan => Fl.nan
  | Fl.inf _, Fl.inf _ => Fl.nan
  | Fl.inf s, Fl.finite q => if q < 0 then Fl.inf (!s) else Fl.inf s
  | Fl.finite _, Fl.inf _ => Fl.finite 0
  | Fl.finite q, Fl.finite r =>
      if r = 0 then
        (if q = 0 then Fl.nan else if q < 0 then Fl.inf true else Fl.inf false)
      else Fl.finite (fl64 (q / r))

/-- Binary64 multiplication: as `Fl.mul`, but the finite product is rounded
to 53 bits. -/
def Fl.mul64 : Fl → Fl → Fl
  | Fl.nan, _ => Fl.nan
  | _, Fl.nan => Fl.nan
  | Fl.inf s, Fl.inf t => Fl.inf (s != t)
  | Fl.inf s, Fl.finite q =>
      if q = 0 then Fl.nan else if q < 0 then Fl.inf (!s) else Fl.inf s
  | Fl.finite q, Fl.inf t =>
      if q = 0 then Fl.nan else if q < 0 then Fl.inf (!t) else Fl.inf t
  | Fl.finite q, Fl.finite r => Fl.finite (fl64 (q * r))

/-- Elementwise division of two bands in binary64 arithmetic: the rounded
counterpart of `divBand` for the same cell-16 statements. -/
def divBand64 (a b : Band) : Band := List.zipWith Fl.div64 a b

/-- Division of a band by a scalar, as in `s1.vv/s1.vv.mean()`. -/
def scalarDiv (a : Band) (m : Fl) : Band := a.map (fun x => Fl.div x m)

/-- The skip-NaN mean shared by `xarray`'s `.mean()` (whose `skipna`
defaults to true on float data) and `np.nanmean`: NaN pixels are dropped,
every other pixel — infinities included — enters the sum; an all-NaN or
empty band yields NaN. -/
def nanmean (l : Band) : Fl :=
  let kept := l.filter (fun x => !x.isNan)
  if kept.length = 0 then Fl.nan
  else Fl.div (kept.foldl Fl.add (Fl.finite 0)) (Fl.finite kept.length)

/-- `np.nanmean` (cell 22), written as its own single-pass accumulation of
the non-NaN sum and count; extensionally equal to `nanmean`. -/
def npNanmean (l : Band) : Fl :=
  let p := l.foldl
    (fun acc x => if x.isNan then acc else (Fl.add acc.1 x, acc.2 + 1))
    (Fl.finite 0, (0 : ℕ))
  if p.2 = 0 then Fl.nan else Fl.div p.1 (Fl.finite p.2)

/-- `band / band.mean()`: a band normalised by its own skip-NaN mean. -/
def normBand (a : Band) : Band := scalarDiv a (nanmean a)

/-- Modelled from the spec: the spec's reading of the normalisation mean in
"mean is taken over all finite pixels", i.e. a mean that drops infinities
as well as NaN.  Kept only to compare with the source's `nanmean`. -/
def specFiniteMean (l : Band) : Fl :=
  let kept := l.filter (fun x => match x with | Fl.finite _ => true | _ => false)
  if kept.length = 0 then Fl.nan
  else Fl.div (kept.foldl Fl.add (Fl.finite 0)) (Fl.finite kept.length)

/-- Modelled from the spec: normalisation by the finite-pixel mean. -/
def normBandSpec (a : Band) : Band := scalarDiv a (specFiniteMean a)

/-- The raster returned by `dc.load` in cell 9: two measurement bands on a
shared pixel grid. -/
structure Raster where
  vv : Band
  vh : Band
deriving Repr

/-- An `xarray.Dataset`: data-variable names bound to bands, in insertion
order. -/
abbrev DS := List (String × Band)

/-- Attribute / key read `s1.x` or `s1["x"]`; `none` is `AttributeError`. -/
def getVar : DS → String → Option Band
  | [], _ => none
  | (k, v) :: rest, name => if k = name then some v else getVar rest name

/-- Assignment `s1["x"] = b`: replace an existing variable in place, else
append a new one. -/
def setVar (d : DS) (name : String) (b : Band) : DS :=
  if d.any (fun p => p.1 = name) then
    d.map (fun p => if p.1 = name then (name, b) else p)
  else d ++ [(name, b)]

/-- The dataset as it stands right after `dc.load`: exactly the two
measurement variables `vv` and `vh`. -/
def loadDS (r : Raster) : DS := [("vv", r.vv), ("vh", r.vh)]

/-- Cell 16, statement by statement; each operand is read from the dataset
state current at its own statement:
`s1["vv_vh"] = s1.vv/s1.vh`, `s1["vh_vv"] = s1.vh/s1.vv`,
`s1["vv_r"] = s1.vv/s1.vv.mean()`, `s1["vh_g"] = s1.vh/s1.vh.mean()`,
`s1["vhvv_b"] = s1.vh_vv/s1.vh_vv.mean()`. -/
def cell16 (s0 : DS) : Option DS := do
  let vv1 ← getVar s0 "vv"
  let vh1 ← getVar s0 "vh"
  let s1 := setVar s0 "vv_vh" (divBand vv1 vh1)
  let vh2 ← getVar s1 "vh"
  let vv2 ← getVar s1 "vv"
  let s2 := setVar s1 "vh_vv" (divBand vh2 vv2)
  let vv3 ← getVar s2 "vv"
  let s3 := setVar s2 "vv_r" (normBand vv3)
  let vh4 ← getVar s3 "vh"
  let s4 := setVar s3 "vh_g" (normBand vh4)
  let vhvv5 ← getVar s4 "vh_vv"
  let s5 := setVar s4 "vhvv_b" (normBand vhvv5)
  return s5

/-- Cell 22: `red_arr = xr.DataArray(s1.vv) / np.nanmean(xr.DataArray(s1.vv))`
(`xr.DataArray` of a data variable is the identity on its values). -/
def red_arr (s : DS) : Option Band :=
  (getVar s "vv").map (fun b => scalarDiv b (npNanmean b))

/-- Cell 22: `green_arr = xr.DataArray(s1.vh) / np.nanmean(xr.DataArray(s1.vh))`. -/
def green_arr (s : DS) : Option Band :=
  (getVar s "vh").map (fun b => scalarDiv b (npNanmean b))

/-- Cell 22: `blue_arr = xr.DataArray(s1.vh_vv) / np.nanmean(xr.DataArray(s1.vh_vv))`. -/
def blue_arr (s : DS) : Option Band :=
  (getVar s "vh_vv").map (fun b => scalarDiv b (npNanmean b))

/-- The data-variable names of a dataset, in storage order. -/
def dataVars (d : DS) : List String := d.map Prod.fst

/-- One dataset returned by `dc.find_datasets(product='s1_rtc')` (cell 6):
an acquisition timestamp `center_time` (timestamps are totally ordered;
modelled as an integer), the dataset's UUID `uid` (`ds.id` in the source,
compared as a string), and the `id` string of its metadata document
(`ds.metadata_doc['id']`, cell 11). -/
structure SourceDataset where
  center_time : ℤ
  uid : String
  metadata_doc_id : String
deriving DecidableEq, Repr

/-- Strict lexicographic order on the sort key
`lambda ds: (ds.center_time, ds.id)` of cell 6, as Python compares
tuples. -/
def keyLT (a b : SourceDataset) : Prop :=
  a.center_time < b.center_time ∨ (a.center_time = b.center_time ∧ a.uid < b.uid)

instance (a b : SourceDataset) : Decidable (keyLT a b) := by
  unfold keyLT
  exact inferInstance

/-- Reflexive closure of the key order: `(center_time, id)` of one dataset
is at most that of another. -/
def keyLE (a b : SourceDataset) : Prop :=
  a.center_time < b.center_time ∨ (a.center_time = b.center_time ∧ a.uid ≤ b.uid)

/-- Stable insertion into a sorted list: the new element goes after every
element whose key is not strictly greater, as Python's stable `sorted`
places it. -/
def insertSorted (x : SourceDataset) : List SourceDataset → List SourceDataset
  | [] => [x]
  | y :: ys => if keyLT x y then x :: y :: ys else y :: insertSorted x ys

/-- `sorted(senti_datasets, key = lambda ds: (ds.center_time, ds.id))`
(cell 6): a stable sort by the lexicographic key, realised as stable
insertion sort (extensionally the same list as any stable sort by this
key). -/
def sortDatasets (l : List SourceDataset) : List SourceDataset :=
  l.foldl (fun acc x => insertSorted x acc) []

/-- The identifier hard-coded in cells 9 and 11 (bound to the Python
variable `id` there). -/
def hardId : String := "e320bae8-996e-56ea-ae68-0efbefa47e9a"

/-- Cell 11: `[ds for ds in senti_datasets if ds.metadata_doc['id'] == id]`. -/
def selected_id (senti : List SourceDataset) : List SourceDataset :=
  senti.filter (fun ds => ds.metadata_doc_id == hardId)

/-- A Python exception: either one raised inside an external library call
(tagged with its call site and an opaque payload), or one of the two the
interpreter itself raises at the notebook's own list/attribute accesses. -/
inductive PyErr
  | external (site : String) (code : ℕ) : PyErr
  | indexError : PyErr
  | attributeError : PyErr
deriving DecidableEq, Repr

/-- The notebook's code cells run in order, each external call modelled by
its `Except` result (`find` is `dc.find_datasets`, `load` is `dc.load`,
`displayCall` is `display_map`, `plotCalls` the `.plot`/`imshow` calls,
`rgbCall` the `rgb` helper).  The notebook has no `try`/`except`: every
match simply re-raises the error it received, and a raised error ends the
run. -/
def runNotebook (find : Except PyErr (List SourceDataset))
    (load : Except PyErr Raster)
    (displayCall : Except PyErr Unit)
    (plotCalls : Except PyErr Unit)
    (rgbCall : Except PyErr Unit) : Except PyErr DS :=
  match find with
  | .error e => .error e
  | .ok datasets =>
    match (sortDatasets datasets)[100]? with
    | none => .error PyErr.indexError
    | some _sample =>
      match load with
      | .error e => .error e
      | .ok raster =>
        match (selected_id (sortDatasets datasets))[0]? with
        | none => .error PyErr.indexError
        | some _sel0 =>
          match displayCall with
          | .error e => .error e
          | .ok _ =>
            match cell16 (loadDS raster) with
            | none => .error PyErr.attributeError
            | some s1 =>
              match plotCalls with
              | .error e => .error e
              | .ok _ =>
                match rgbCall with
                | .error e => .error e
                | .ok _ => .ok s1

/-- A band whose non-NaN values are all finite (no infinities), the
side condition under which claim C9 compares the two composites. -/
def noInfBand (l : Band) : Prop :=
  l.all (fun x => match x with | Fl.inf _ => false | _ => true) = true

theorem cell16_load_eq (r : Raster) :
    cell16 (loadDS r) = some
      [("vv", r.vv), ("vh", r.vh),
       ("vv_vh", divBand r.vv r.vh),
       ("vh_vv", divBand r.vh r.vv),
       ("vv_r", normBand r.vv),
       ("vh_g", normBand r.vh),
       ("vhvv_b", normBand (divBand r.vh r.vv))] := rfl

theorem zipWith_getElem?_some (f : Fl → Fl → Fl) :
    ∀ (a b : List Fl) (i : ℕ) (x y : Fl),
      a[i]? = some x → b[i]? = some y →
      (List.zipWith f a b)[i]? = some (f x y)
  | [], _, _, _, _, h, _ => by simp at h
  | _ :: _, [], _, _, _, _, h => by simp at h
  | p :: a, q :: b, 0, x, y, hx, hy => by
      simp at hx hy
      simp [hx, hy]
  | p :: a, q :: b, i + 1, x, y, hx, hy => by
      simpa using zipWith_getElem?_some f a b i x y (by simpa using hx) (by simpa using hy)

theorem zipWith_getElem?_inv (f : Fl → Fl → Fl) :
    ∀ (a b : List Fl) (i : ℕ) (c : Fl),
      (List.zipWith f a b)[i]? = some c →
      ∃ x y, a[i]? = some x ∧ b[i]? = some y ∧ c = f x y
  | [], _, _, _, h => by simp at h
  | _ :: _, [], _, _, h => by simp at h
  | p :: a, q :: b, 0, c, h => by
      simp at h
      exact ⟨p, q, by simp, by simp, h.symm⟩
  | p :: a, q :: b, i + 1, c, h => by
      obtain ⟨x, y, hx, hy, hc⟩ := zipWith_getElem?_inv f a b i c (by simpa using h)
      exact ⟨x, y, by simpa using hx, by simpa using hy, hc⟩

theorem nanmean_foldl_pair (l : List Fl) :
    ∀ (s : Fl) (n : ℕ),
      l.foldl (fun acc x => if x.isNan then acc else (Fl.add acc.1 x, acc.2 + 1)) (s, n)
        = ((l.filter (fun x => !x.isNan)).foldl Fl.add s,
           n + (l.filter (fun x => !x.isNan)).length) := by
  induction l with
  | nil => intro s n; simp
  | cons x xs ih =>
      intro s n
      by_cases hx : x.isNan
      · simp [hx, ih]
      · simp [hx, ih]
        omega

theorem npNanmean_eq_nanmean (l : Band) : npNanmean l = nanmean l := by
  unfold npNanmean nanmean
  rw [nanmean_foldl_pair]
  simp

theorem div_both_finite_mul_one (x y : Fl) (a b : ℚ)
    (ha : Fl.div x y = Fl.finite a) (ha0 : a ≠ 0)
    (hb : Fl.div y x = Fl.finite b) (hb0 : b ≠ 0) :
    Fl.mul (Fl.finite a) (Fl.finite b) = Fl.finite 1 := by
  cases x with
  | nan => simp [Fl.div] at ha
  | inf s =>
      cases y with
      | nan => simp [Fl.div] at ha
      | inf t => simp [Fl.div] at ha
      | finite r =>
          simp [Fl.div] at hb
          exact absurd hb.symm hb0
  | finite q =>
      cases y with
      | nan => simp [Fl.div] at ha
      | inf t =>
          simp [Fl.div] at ha
          exact absurd ha.symm ha0
      | finite r =>
          by_cases hr : r = 0
          · subst hr
            by_cases hq : q = 0 <;> simp [Fl.div, hq] at ha
            rcases lt_or_ge q 0 with hql | hql <;> simp [hql, not_lt_of_ge] at ha
          · by_cases hq : q = 0
            · subst hq
              simp [Fl.div, hr] at ha
              exact absurd ha.symm ha0
            · simp [Fl.div, hr, hq] at ha hb
              subst ha
              subst hb
              simp [Fl.mul]
              field_simp

theorem Fl.div_nan_right (x : Fl) : Fl.div x Fl.nan = Fl.nan := by
  cases x <;> rfl

@[simp] theorem Fl.div_nan_left (x : Fl) : Fl.div Fl.nan x = Fl.nan := by
  cases x <;> rfl

@[simp] theorem Fl.div_inf_inf (s t : Bool) : Fl.div (Fl.inf s) (Fl.inf t) = Fl.nan := rfl

@[simp] theorem Fl.div_inf_finite (s : Bool) (q : ℚ) :
    Fl.div (Fl.inf s) (Fl.finite q) = if q < 0 then Fl.inf (!s) else Fl.inf s := rfl

@[simp] theorem Fl.div_finite_inf (q : ℚ) (t : Bool) :
    Fl.div (Fl.finite q) (Fl.inf t) = Fl.finite 0 := rfl

@[simp] theorem Fl.div_finite_finite (q r : ℚ) :
    Fl.div (Fl.finite q) (Fl.finite r) =
      (if r = 0 then
        (if q = 0 then Fl.nan else if q < 0 then Fl.inf true else Fl.inf false)
      else Fl.finite (q / r)) := rfl

@[simp] theorem Fl.add_nan_left (x : Fl) : Fl.add Fl.nan x = Fl.nan := by
  cases x <;> rfl

@[simp] theorem Fl.add_nan_right (x : Fl) : Fl.add x Fl.nan = Fl.nan := by
  cases x <;> rfl

@[simp] theorem Fl.add_inf_inf (s t : Bool) :
    Fl.add (Fl.inf s) (Fl.inf t) = if s = t then Fl.inf s else Fl.nan := rfl

@[simp] theorem Fl.add_inf_finite (s : Bool) (q : ℚ) :
    Fl.add (Fl.inf s) (Fl.finite q) = Fl.inf s := rfl

@[simp] theorem Fl.add_finite_inf (q : ℚ) (t : Bool) :
    Fl.add (Fl.finite q) (Fl.inf t) = Fl.inf t := rfl

@[simp] theorem Fl.add_finite_finite (q r : ℚ) :
    Fl.add (Fl.finite q) (Fl.finite r) = Fl.finite (q + r) := rfl

@[simp] theorem Fl.mul_finite_finite (q r : ℚ) :
    Fl.mul (Fl.finite q) (Fl.finite r) = Fl.finite (q * r) := rfl

theorem Fl.div_finite_zero (x : Fl) :
    Fl.div x (Fl.finite 0) = Fl.zeroDenomResult x := by
  cases x with
  | nan => rfl
  | inf s => simp [Fl.div, Fl.zeroDenomResult]
  | finite q => simp [Fl.div, Fl.zeroDenomResult]

theorem keyLE_of_keyLT {a b : SourceDataset} (h : keyLT a b) : keyLE a b := by
  rcases h with h | ⟨h1, h2⟩
  · exact Or.inl h
  · exact Or.inr ⟨h1, le_of_lt h2⟩

theorem keyLE_of_not_keyLT {a b : SourceDataset} (h : ¬ keyLT a b) : keyLE b a := by
  unfold keyLT at h
  push_neg at h
  rcases lt_trichotomy a.center_time b.center_time with hlt | heq | hgt
  · exact absurd h.1 (not_le_of_lt hlt)
  · exact Or.inr ⟨heq.symm, h.2 heq⟩
  · exact Or.inl hgt

theorem chain'_insertSorted (x : SourceDataset) :
    ∀ l : List SourceDataset,
      List.Chain' keyLE l → List.Chain' keyLE (insertSorted x l) := by
  intro l
  induction l with
  | nil => intro _; simp [insertSorted]
  | cons y ys ih =>
      intro h
      by_cases hxy : keyLT x y
      · simp only [insertSorted, if_pos hxy]
        exact List.chain'_cons.mpr ⟨keyLE_of_keyLT hxy, h⟩
      · simp only [insertSorted, if_neg hxy]
        cases ys with
        | nil =>
            simp [insertSorted]
            exact keyLE_of_not_keyLT hxy
        | cons z zs =>
            have hyz := (List.chain'_cons.mp h).1
            have htail := (List.chain'_cons.mp h).2
            have hins := ih htail
            by_cases hxz : keyLT x z
            · simp only [insertSorted, if_pos hxz] at hins ⊢
              exact List.chain'_cons.mpr ⟨keyLE_of_not_keyLT hxy, hins⟩
            · simp only [insertSorted, if_neg hxz] at hins ⊢
              exact List.chain'_cons.mpr ⟨hyz, hins⟩

theorem chain'_sortAux :
    ∀ (l acc : List SourceDataset), List.Chain' keyLE acc →
      List.Chain' keyLE (l.foldl (fun ac x => insertSorted x ac) acc)
  | [], _, h => h
  | x :: xs, acc, h =>
      chain'_sortAux xs (insertSorted x acc) (chain'_insertSorted x acc h)

theorem length_insertSorted (x : SourceDataset) :
    ∀ l : List SourceDataset, (insertSorted x l).length = l.length + 1
  | [] => rfl
  | y :: ys => by
      by_cases hxy : keyLT x y
      · simp [insertSorted, hxy]
      · simp [insertSorted, hxy, length_insertSorted x ys]

theorem length_sortAux :
    ∀ (l acc : List SourceDataset),
      (l.foldl (fun ac x => insertSorted x ac) acc).length = acc.length + l.length
  | [], _ => by simp
  | x :: xs, acc => by
      simp [length_sortAux xs (insertSorted x acc), length_insertSorted]
      omega

theorem length_sortDatasets (l : List SourceDataset) :
    (sortDatasets l).length = l.length := by
  simpa [sortDatasets] using length_sortAux l []

theorem mem_insertSorted (a x : SourceDataset) :
    ∀ l : List SourceDataset, (a ∈ insertSorted x l ↔ a = x ∨ a ∈ l)
  | [] => by simp [insertSorted]
  | y :: ys => by
      by_cases hxy : keyLT x y
      · simp [insertSorted, hxy]
      · simp [insertSorted, hxy, mem_insertSorted a x ys]
        tauto

theorem mem_sortAux (a : SourceDataset) :
    ∀ (l acc : List SourceDataset),
      (a ∈ l.foldl (fun ac x => insertSorted x ac) acc ↔ a ∈ acc ∨ a ∈ l)
  | [], _ => by simp
  | x :: xs, acc => by
      simp [mem_sortAux a xs (insertSorted x acc), mem_insertSorted]
      tauto

theorem mem_sortDatasets (a : SourceDataset) (l : List SourceDataset) :
    a ∈ sortDatasets l ↔ a ∈ l := by
  simpa [sortDatasets] using mem_sortAux a l []

theorem getElem?_isSome_iff {α : Type} (l : List α) (i : ℕ) :
    (l[i]?).isSome = true ↔ i < l.length := by
  constructor
  · intro h
    by_contra hlen
    rw [List.getElem?_eq_none (by omega)] at h
    simp at h
  · intro h
    rw [List.getElem?_eq_getElem h]
    rfl

theorem selected_id_head_iff (m : List SourceDataset) :
    0 < (selected_id m).length ↔ ∃ ds ∈ m, ds.metadata_doc_id = hardId := by
  unfold selected_id
  rw [List.length_pos, ne_eq, List.filter_eq_nil_iff]
  push_neg
  simp

/-- C1: for every pixel of the loaded raster (stated, as in the claim,
under the guard that the denominator band values are non-zero there), the
stored channel `vh_vv` equals the elementwise quotient `vh / vv`, and
`vv_vh` equals `vv / vh`. -/
theorem ratio_channels_are_elementwise_quotients (r : Raster) (i : ℕ) (vvi vhi : Fl)
    (hvv : r.vv[i]? = some vvi) (hvh : r.vh[i]? = some vhi)
    (_hvv0 : vvi ≠ Fl.finite 0) (_hvh0 : vhi ≠ Fl.finite 0) :
    ((cell16 (loadDS r)).bind (fun d => getVar d "vh_vv")).bind (fun b => b[i]?)
      = some (Fl.div vhi vvi) ∧
    ((cell16 (loadDS r)).bind (fun d => getVar d "vv_vh")).bind (fun b => b[i]?)
      = some (Fl.div vvi vhi) := by
  rw [cell16_load_eq]
  constructor
  · exact zipWith_getElem?_some Fl.div r.vh r.vv i vhi vvi hvh hvv
  · exact zipWith_getElem?_some Fl.div r.vv r.vh i vvi vhi hvv hvh

theorem ratio_channels_are_elementwise_quotients_witness :
    (((cell16 (loadDS ⟨[Fl.finite 4], [Fl.finite 8]⟩)).bind (fun d => getVar d "vh_vv")).bind
        (fun b => b[0]?) = some (Fl.div (Fl.finite 8) (Fl.finite 4))) ∧
    (((cell16 (loadDS ⟨[Fl.finite 4], [Fl.finite 8]⟩)).bind (fun d => getVar d "vv_vh")).bind
        (fun b => b[0]?) = some (Fl.div (Fl.finite 4) (Fl.finite 8))) :=
  ratio_channels_are_elementwise_quotients ⟨[Fl.finite 4], [Fl.finite 8]⟩ 0
    (Fl.finite 4) (Fl.finite 8) rfl rfl (by simp) (by simp)

/-- C2 (amended): on every pixel where the stored ratio channels `vh_vv`
and `vv_vh` are both finite and nonzero, their exact (unrounded) product is
1: the channels are multiplicative inverses in exact arithmetic.  Under the
program's binary64 rounding the stored product can fall below 1 by one unit
in the last place — see the counterexample at `vv = 49`, `vh = 1`. -/
theorem ratio_channels_multiplicative_inverses (r : Raster) (i : ℕ) (a b : ℚ)
    (ha : ((cell16 (loadDS r)).bind (fun d => getVar d "vh_vv")).bind (fun b => b[i]?)
      = some (Fl.finite a))
    (ha0 : a ≠ 0)
    (hb : ((cell16 (loadDS r)).bind (fun d => getVar d "vv_vh")).bind (fun b => b[i]?)
      = some (Fl.finite b))
    (hb0 : b ≠ 0) :
    Fl.mul (Fl.finite a) (Fl.finite b) = Fl.finite 1 := by
  rw [cell16_load_eq] at ha hb
  obtain ⟨x, y, hx, hy, hxy⟩ := zipWith_getElem?_inv Fl.div r.vh r.vv i _ ha
  obtain ⟨u, v, hu, hv, huv⟩ := zipWith_getElem?_inv Fl.div r.vv r.vh i _ hb
  have h1 : u = y := by rw [hu] at hy; exact Option.some_inj.mp hy
  have h2 : v = x := by rw [hv] at hx; exact Option.some_inj.mp hx
  rw [h1, h2] at huv
  exact div_both_finite_mul_one x y a b hxy.symm ha0 huv.symm hb0

theorem ratio_channels_multiplicative_inverses_witness :
    Fl.mul (Fl.finite 2) (Fl.finite (1 / 2)) = Fl.finite 1 :=
  ratio_channels_multiplicative_inverses ⟨[Fl.finite 4], [Fl.finite 8]⟩ 0 2 (1 / 2)
    (by rw [cell16_load_eq]; simp [getVar, divBand, Fl.div]; norm_num)
    (by norm_num)
    (by rw [cell16_load_eq]; simp [getVar, divBand, Fl.div]; norm_num)
    (by norm_num)

/-- C3 (counterexample): on the raster with `vv = [1, 0]`, `vh = [1, 1]`
the stored `vhvv_b` channel is `[0, NaN]`, while normalising the source
band `vh_vv = [1, +∞]` by its mean over finite pixels (the claim's mean,
which would be 1) gives `[1, +∞]`: the claim's description of the stored
channel fails at pixel 0.  The code's mean drops only NaN, so the `+∞`
pixel drives the mean to `+∞`. -/
theorem normalized_channel_finite_mean_counterexample :
    ((cell16 (loadDS ⟨[Fl.finite 1, Fl.finite 0], [Fl.finite 1, Fl.finite 1]⟩)).bind
        (fun d => getVar d "vhvv_b")) = some [Fl.finite 0, Fl.nan] ∧
    normBandSpec (divBand [Fl.finite 1, Fl.finite 1] [Fl.finite 1, Fl.finite 0])
      = [Fl.finite 1, Fl.inf false] ∧
    ([Fl.finite 0, Fl.nan] : Band) ≠ [Fl.finite 1, Fl.inf false] := by
  refine ⟨?_, ?_, by simp⟩
  · rw [cell16_load_eq]
    simp [getVar, divBand, normBand, scalarDiv, nanmean, Fl.isNan]
    norm_num
  · simp [normBandSpec, divBand, scalarDiv, specFiniteMean]
    norm_num

/-- C3 (amended): each stored normalised channel is its source band divided
pixelwise by the band's skip-NaN mean — the mean over all non-NaN pixels,
with infinite pixels included in (and able to dominate) that mean. -/
theorem normalized_channels_skipnan_mean (r : Raster) :
    (cell16 (loadDS r)).bind (fun d => getVar d "vv_r")
      = some (scalarDiv r.vv (nanmean r.vv)) ∧
    (cell16 (loadDS r)).bind (fun d => getVar d "vh_g")
      = some (scalarDiv r.vh (nanmean r.vh)) ∧
    (cell16 (loadDS r)).bind (fun d => getVar d "vhvv_b")
      = some (scalarDiv (divBand r.vh r.vv) (nanmean (divBand r.vh r.vv))) :=
  ⟨rfl, rfl, rfl⟩

/-- C4 (counterexample): at the pixel `vv = 1`, `vh = 0` the denominator of
`vv_vh` is zero, yet the stored value is `+∞`, not NaN: a zero denominator
under a nonzero finite numerator yields an infinity under IEEE-754
division, refuting the claim that every zero-denominator pixel becomes
NaN. -/
theorem zero_denominator_yields_infinity_counterexample :
    ((cell16 (loadDS ⟨[Fl.finite 1], [Fl.finite 0]⟩)).bind
        (fun d => getVar d "vv_vh")).bind (fun b => b[0]?)
      = some (Fl.inf false) ∧ Fl.inf false ≠ Fl.nan := by
  refine ⟨?_, by simp⟩
  rw [cell16_load_eq]
  simp [getVar, divBand]

/-- C4 (amended): in the ratio channels, a missing (NaN) denominator pixel
yields NaN; a zero denominator yields NaN when the numerator is zero or
missing, and a signed infinity — not NaN — when the numerator is finite
nonzero or infinite.  Stated for `vv_vh` (denominator `vh`) and `vh_vv`
(denominator `vv`). -/
theorem ratio_division_zero_or_missing_denominator (r : Raster) (i : ℕ) (vvi vhi : Fl)
    (hvv : r.vv[i]? = some vvi) (hvh : r.vh[i]? = some vhi) :
    (vhi = Fl.nan →
      ((cell16 (loadDS r)).bind (fun d => getVar d "vv_vh")).bind (fun b => b[i]?)
        = some Fl.nan) ∧
    (vhi = Fl.finite 0 →
      ((cell16 (loadDS r)).bind (fun d => getVar d "vv_vh")).bind (fun b => b[i]?)
        = some (Fl.zeroDenomResult vvi)) ∧
    (vvi = Fl.nan →
      ((cell16 (loadDS r)).bind (fun d => getVar d "vh_vv")).bind (fun b => b[i]?)
        = some Fl.nan) ∧
    (vvi = Fl.finite 0 →
      ((cell16 (loadDS r)).bind (fun d => getVar d "vh_vv")).bind (fun b => b[i]?)
        = some (Fl.zeroDenomResult vhi)) := by
  refine ⟨?_, ?_, ?_, ?_⟩ <;> intro h <;> subst h <;> rw [cell16_load_eq]
  · show (List.zipWith Fl.div r.vv r.vh)[i]? = some Fl.nan
    rw [zipWith_getElem?_some Fl.div r.vv r.vh i vvi Fl.nan hvv hvh, Fl.div_nan_right]
  · show (List.zipWith Fl.div r.vv r.vh)[i]? = some (Fl.zeroDenomResult vvi)
    rw [zipWith_getElem?_some Fl.div r.vv r.vh i vvi (Fl.finite 0) hvv hvh,
      Fl.div_finite_zero]
  · show (List.zipWith Fl.div r.vh r.vv)[i]? = some Fl.nan
    rw [zipWith_getElem?_some Fl.div r.vh r.vv i vhi Fl.nan hvh hvv, Fl.div_nan_right]
  · show (List.zipWith Fl.div r.vh r.vv)[i]? = some (Fl.zeroDenomResult vhi)
    rw [zipWith_getElem?_some Fl.div r.vh r.vv i vhi (Fl.finite 0) hvh hvv,
      Fl.div_finite_zero]

theorem ratio_division_zero_or_missing_denominator_witness :
    ((cell16 (loadDS ⟨[Fl.nan], [Fl.finite 0]⟩)).bind
        (fun d => getVar d "vv_vh")).bind (fun b => b[0]?) = some Fl.nan :=
  (ratio_division_zero_or_missing_denominator ⟨[Fl.nan], [Fl.finite 0]⟩ 0
    Fl.nan (Fl.finite 0) rfl rfl).2.1 rfl

/-- C5 (counterexample): cell 16 stores five derived channels, not three:
on a one-pixel raster the dataset afterwards holds 5 variables beyond the
two originals. -/
theorem five_derived_channels_counterexample :
    (cell16 (loadDS ⟨[Fl.finite 1], [Fl.finite 2]⟩)).map
        (fun d => ((dataVars d).filter (fun k => !(k == "vv" || k == "vh"))).length)
      = some 5 ∧ (5 : ℕ) ≠ 3 := by
  refine ⟨?_, by simp⟩
  rw [cell16_load_eq]
  simp [dataVars]

/-- C5 (amended): cell 16 adds exactly five derived channels — the two
ratio channels `vv_vh` and `vh_vv`, and the three mean-normalised channels
`vv_r`, `vh_g`, `vhvv_b` — and nothing else: afterwards the dataset's
variables are exactly the two originals followed by those five, in
assignment order. -/
theorem derived_channels_exactly_five (r : Raster) :
    (cell16 (loadDS r)).map dataVars
      = some ["vv", "vh", "vv_vh", "vh_vv", "vv_r", "vh_g", "vhvv_b"] := rfl

/-- C7: the five assignments of cell 16 only decorate the dataset: the
original measurement bands `vv` and `vh` read back unchanged afterwards. -/
theorem originals_unchanged_by_cell16 (r : Raster) :
    (cell16 (loadDS r)).bind (fun d => getVar d "vv") = some r.vv ∧
    (cell16 (loadDS r)).bind (fun d => getVar d "vh") = some r.vh :=
  ⟨rfl, rfl⟩

/-- C6: after the query, `senti_datasets` is sorted by timestamp then
identifier: every adjacent pair is ordered by the lexicographic key
`(center_time, id)`. -/
theorem senti_datasets_sorted_by_time_and_id (l : List SourceDataset) :
    List.Chain' keyLE (sortDatasets l) := by
  simpa [sortDatasets] using chain'_sortAux l [] (by simp)

/-- C8: the notebook defines no error handling: whichever external call is
the first to raise (dataset query, raster load, map display, plotting, or
the RGB renderer), the run ends with exactly that error, unchanged — no
branch catches, retries, or recovers. -/
theorem external_errors_propagate_unchanged
    (find : Except PyErr (List SourceDataset)) (load : Except PyErr Raster)
    (displayCall plotCalls rgbCall : Except PyErr Unit) (e : PyErr) :
    (find = .error e →
      runNotebook find load displayCall plotCalls rgbCall = .error e) ∧
    (∀ l smp, find = .ok l → (sortDatasets l)[100]? = some smp →
      (load = .error e →
        runNotebook find load displayCall plotCalls rgbCall = .error e) ∧
      (∀ r sel0, load = .ok r → (selected_id (sortDatasets l))[0]? = some sel0 →
        (displayCall = .error e →
          runNotebook find load displayCall plotCalls rgbCall = .error e) ∧
        (∀ d, displayCall = .ok () → cell16 (loadDS r) = some d →
          (plotCalls = .error e →
            runNotebook find load displayCall plotCalls rgbCall = .error e) ∧
          (plotCalls = .ok () → rgbCall = .error e →
            runNotebook find load displayCall plotCalls rgbCall = .error e)))) := by
  refine ⟨fun hf => by subst hf; rfl, ?_⟩
  intro l smp hf hsmp
  subst hf
  refine ⟨fun hl => by subst hl; simp only [runNotebook, hsmp], ?_⟩
  intro r sel0 hl hsel
  subst hl
  refine ⟨fun hd => by subst hd; simp only [runNotebook, hsmp, hsel], ?_⟩
  intro d hd hc
  subst hd
  refine ⟨fun hp => by subst hp; simp only [runNotebook, hsmp, hsel, hc], ?_⟩
  intro hp hr
  subst hp
  subst hr
  simp only [runNotebook, hsmp, hsel, hc]

theorem external_errors_propagate_unchanged_witness :
    runNotebook (Except.error (PyErr.external "find_datasets" 7))
        (Except.ok ⟨[], []⟩) (Except.ok ()) (Except.ok ()) (Except.ok ())
      = Except.error (PyErr.external "find_datasets" 7) :=
  (external_errors_propagate_unchanged (Except.error (PyErr.external "find_datasets" 7))
    (Except.ok ⟨[], []⟩) (Except.ok ()) (Except.ok ()) (Except.ok ())
    (PyErr.external "find_datasets" 7)).1 rfl

/-- C9: under the claim's side condition that the source bands hold no
infinities, the cell-22 composite arrays coincide with the cell-16
normalised channels: `red_arr = vv_r`, `green_arr = vh_g`,
`blue_arr = vhvv_b` (the two mean variants agree even without the side
condition). -/
theorem composite_methods_compute_same_channels (r : Raster) (d : DS)
    (h : cell16 (loadDS r) = some d)
    (_hvv : noInfBand r.vv) (_hvh : noInfBand r.vh)
    (_hratio : noInfBand (divBand r.vh r.vv)) :
    red_arr d = getVar d "vv_r" ∧ green_arr d = getVar d "vh_g" ∧
      blue_arr d = getVar d "vhvv_b" := by
  rw [cell16_load_eq] at h
  obtain rfl := Option.some_inj.mp h
  refine ⟨?_, ?_, ?_⟩
  · show some (scalarDiv r.vv (npNanmean r.vv)) = some (scalarDiv r.vv (nanmean r.vv))
    rw [npNanmean_eq_nanmean]
  · show some (scalarDiv r.vh (npNanmean r.vh)) = some (scalarDiv r.vh (nanmean r.vh))
    rw [npNanmean_eq_nanmean]
  · show some (scalarDiv (divBand r.vh r.vv) (npNanmean (divBand r.vh r.vv)))
        = some (scalarDiv (divBand r.vh r.vv) (nanmean (divBand r.vh r.vv)))
    rw [npNanmean_eq_nanmean]

theorem composite_methods_compute_same_channels_witness :
    red_arr ((cell16 (loadDS ⟨[Fl.finite 1], [Fl.finite 2]⟩)).getD [])
        = getVar ((cell16 (loadDS ⟨[Fl.finite 1], [Fl.finite 2]⟩)).getD []) "vv_r" ∧
    green_arr ((cell16 (loadDS ⟨[Fl.finite 1], [Fl.finite 2]⟩)).getD [])
        = getVar ((cell16 (loadDS ⟨[Fl.finite 1], [Fl.finite 2]⟩)).getD []) "vh_g" ∧
    blue_arr ((cell16 (loadDS ⟨[Fl.finite 1], [Fl.finite 2]⟩)).getD [])
        = getVar ((cell16 (loadDS ⟨[Fl.finite 1], [Fl.finite 2]⟩)).getD []) "vhvv_b" :=
  composite_methods_compute_same_channels ⟨[Fl.finite 1], [Fl.finite 2]⟩ _ rfl
    (by simp [noInfBand]) (by simp [noInfBand]) (by simp [noInfBand, divBand])

/-- C10: the two public-boundary list indexings succeed exactly under the
unstated preconditions: `senti_datasets[100]` is in bounds iff the query
returned at least 101 datasets, and `selected_id[0]` iff some returned
dataset's metadata id equals the hard-coded identifier. -/
theorem boundary_index_preconditions (l : List SourceDataset) :
    (((sortDatasets l)[100]?).isSome = true ↔ 101 ≤ l.length) ∧
    (((selected_id (sortDatasets l))[0]?).isSome = true ↔
      ∃ ds ∈ l, ds.metadata_doc_id = hardId) := by
  constructor
  · rw [getElem?_isSome_iff, length_sortDatasets]
    omega
  · rw [getElem?_isSome_iff]
    constructor
    · intro h
      obtain ⟨ds, hds, hid⟩ := (selected_id_head_iff (sortDatasets l)).mp h
      exact ⟨ds, (mem_sortDatasets ds l).mp hds, hid⟩
    · rintro ⟨ds, hds, hid⟩
      exact (selected_id_head_iff (sortDatasets l)).mpr
        ⟨ds, (mem_sortDatasets ds l).mpr hds, hid⟩

theorem int_log_eq_of_bounds (q : ℚ) (k : ℤ) (hq : 0 < q)
    (h1 : (2 : ℚ) ^ k ≤ q) (h2 : q < (2 : ℚ) ^ (k + 1)) : Int.log 2 q = k := by
  have h1n : ((2 : ℕ) : ℚ) ^ k ≤ q := by exact_mod_cast h1
  have h2n : q < ((2 : ℕ) : ℚ) ^ (k + 1) := by exact_mod_cast h2
  have hk1 : k ≤ Int.log 2 q := (Int.zpow_le_iff_le_log (by norm_num) hq).mp h1n
  have hk2 : Int.log 2 q < k + 1 := (Int.lt_zpow_iff_log_lt (by norm_num) hq).mp h2n
  omega

theorem fl64_eq_of_bounds (q : ℚ) (k : ℤ) (hq : 0 < q)
    (h1 : (2 : ℚ) ^ k ≤ q) (h2 : q < (2 : ℚ) ^ (k + 1)) :
    fl64 q = (roundNearestEven (q * (2 : ℚ) ^ (52 - k)) : ℚ) * (2 : ℚ) ^ (k - 52) := by
  have hlog : Int.log 2 q = k := int_log_eq_of_bounds q k hq h1 h2
  unfold fl64
  rw [if_neg hq.ne', if_neg (not_lt.mpr hq.le), abs_of_pos hq, hlog, one_mul]

theorem fl64_one_div_49 : fl64 (1 / 49 : ℚ) = 5882252574524729 / 2 ^ 58 := by
  have h := fl64_eq_of_bounds (1 / 49 : ℚ) (-6) (by norm_num) (by norm_num) (by norm_num)
  have hfl : ⌊(1 / 49 : ℚ) * (2 : ℚ) ^ (52 - (-6 : ℤ))⌋ = 5882252574524729 := by
    rw [Int.floor_eq_iff]
    norm_num
  have hrne : roundNearestEven ((1 / 49 : ℚ) * (2 : ℚ) ^ (52 - (-6 : ℤ)))
      = 5882252574524729 := by
    unfold roundNearestEven
    rw [hfl]
    norm_num
  rw [h, hrne]
  norm_num

theorem fl64_49 : fl64 (49 : ℚ) = 49 := by
  have h := fl64_eq_of_bounds (49 : ℚ) 5 (by norm_num) (by norm_num) (by norm_num)
  have hfl : ⌊(49 : ℚ) * (2 : ℚ) ^ (52 - (5 : ℤ))⌋ = 49 * 2 ^ 47 := by
    rw [Int.floor_eq_iff]
    norm_num
  have hrne : roundNearestEven ((49 : ℚ) * (2 : ℚ) ^ (52 - (5 : ℤ))) = 49 * 2 ^ 47 := by
    unfold roundNearestEven
    rw [hfl]
    norm_num
  rw [h, hrne]
  norm_num

theorem fl64_near_one_product :
    fl64 ((5882252574524729 / 2 ^ 58 : ℚ) * 49) = (2 ^ 53 - 1) / 2 ^ 53 := by
  have h := fl64_eq_of_bounds ((5882252574524729 / 2 ^ 58 : ℚ) * 49) (-1)
    (by norm_num) (by norm_num) (by norm_num)
  have hfl : ⌊((5882252574524729 / 2 ^ 58 : ℚ) * 49) * (2 : ℚ) ^ (52 - (-1 : ℤ))⌋
      = 9007199254740991 := by
    rw [Int.floor_eq_iff]
    norm_num
  have hrne : roundNearestEven (((5882252574524729 / 2 ^ 58 : ℚ) * 49)
      * (2 : ℚ) ^ (52 - (-1 : ℤ))) = 9007199254740991 := by
    unfold roundNearestEven
    rw [hfl]
    norm_num
  rw [h, hrne]
  norm_num

/-- C2 (counterexample): at the pixel `vv = 49`, `vh = 1`, computed as the
program computes it — binary64 division for the two cell-16 ratio channels,
binary64 multiplication for their product — both channels are finite and
nonzero (`vh_vv = fl64(1/49)`, `vv_vh = 49`), yet their product is
`(2^53 - 1) / 2^53 = 0.9999999999999999…`, not 1: rounding refutes the
claim that the product equals 1 wherever both channels are finite and
nonzero. -/
theorem binary64_ratio_product_not_one_counterexample :
    divBand64 [Fl.finite 1] [Fl.finite 49] = [Fl.finite (5882252574524729 / 2 ^ 58)] ∧
    divBand64 [Fl.finite 49] [Fl.finite 1] = [Fl.finite 49] ∧
    (5882252574524729 / 2 ^ 58 : ℚ) ≠ 0 ∧ (49 : ℚ) ≠ 0 ∧
    Fl.mul64 (Fl.finite (5882252574524729 / 2 ^ 58)) (Fl.finite 49)
      = Fl.finite ((2 ^ 53 - 1) / 2 ^ 53) ∧
    Fl.finite ((2 ^ 53 - 1 : ℚ) / 2 ^ 53) ≠ Fl.finite 1 := by
  refine ⟨?_, ?_, by norm_num, by norm_num, ?_, by norm_num⟩
  · simp [divBand64, Fl.div64]
    norm_num
    rw [fl64_one_div_49]
    norm_num
  · simp [divBand64, Fl.div64]
    exact fl64_49
  · simp [Fl.mul64]
    rw [fl64_near_one_product]
